import Mathlib

/-!
Verification development for the BloodLink certificate verification workflow.

The definitions below are a shallow embedding of the repository's code:

* `computeCertificateHash` embeds `src/utils/certificateHash.js`
  (client-side hash) and `computeFileHash` embeds
  `supabase/functions/verify-certificate/index.ts` (server-side hash).
  The platform SHA-256 primitive (`crypto.subtle.digest`) is a parameter
  `sha256 : List Nat → List Nat` over byte sequences, shared by both
  call sites exactly as both sides call the same Web Crypto primitive.
* `DonorVerification.*` embeds the Solidity contract
  `supabase/contracts/DonorVerification.sol`.  Addresses and `bytes32`
  values are modelled as `Nat` (the all-zero `bytes32` is `0`), the
  `records` mapping as a total function with zero-valued default, and
  revert as `Except.error` (a revert commits no state and no events).
-/

namespace BloodLink

/-- Lowercase hex digit predicate, used to state the hash output format. -/
def isLowerHexChar (c : Char) : Bool :=
  ('0' ≤ c && c ≤ '9') || ('a' ≤ c && c ≤ 'f')

/-- Hex digit predicate of either case, as in the address regexes. -/
def isHexChar (c : Char) : Bool :=
  ('0' ≤ c && c ≤ '9') || ('a' ≤ c && c ≤ 'f') || ('A' ≤ c && c ≤ 'F')

/-- JS `b.toString(16)`: minimal lowercase hex rendering of a byte. -/
def toHexString (b : Nat) : String :=
  String.mk (Nat.toDigits 16 b)

/-- JS `.padStart(2, '0')` as applied to the per-byte hex string. -/
def padStart2 (s : String) : String :=
  if s.length ≥ 2 then s else String.mk (List.replicate (2 - s.length) '0') ++ s

/-- One byte rendered as two lowercase hex characters
(`b.toString(16).padStart(2, '0')` in both hash functions). -/
def byteToHex (b : Nat) : String :=
  padStart2 (toHexString b)

/-- Server-side hash (`computeFileHash` in
`supabase/functions/verify-certificate/index.ts`): SHA-256 digest of the
file bytes, each byte rendered as two lowercase hex characters, joined,
with the `0x` prefix. -/
def computeFileHash (sha256 : List Nat → List Nat) (fileData : List Nat) : String :=
  let hashArray := sha256 fileData
  let hashHex := String.join (hashArray.map byteToHex)
  "0x" ++ hashHex

/-- Client-side hash (`computeCertificateHash` in
`src/utils/certificateHash.js`) on the byte-sequence (ArrayBuffer) path:
checks Web Crypto availability, then performs the same digest-and-render
computation as the server.  The catch-and-rethrow wrapper in the source
turns the availability failure into the `Failed to compute hash:` message
modelled here. -/
def computeCertificateHash (cryptoAvailable : Bool) (sha256 : List Nat → List Nat)
    (fileInput : List Nat) : Except String String :=
  if !cryptoAvailable then
    .error "Failed to compute hash: Web Crypto API not available. Please use HTTPS or a modern browser."
  else
    let hashArray := sha256 fileInput
    let hashHex := String.join (hashArray.map byteToHex)
    .ok ("0x" ++ hashHex)

/-- A fixed digest function used to instantiate witness theorems. -/
def demoSha (_b : List Nat) : List Nat := List.replicate 32 0

namespace DonorVerification

/-- Solidity struct `Record` of `DonorVerification.sol`. -/
structure Record where
  donor : Nat
  certHash : Nat
  eligible : Bool
  timestamp : Nat
  present : Bool
  deriving DecidableEq, Repr

/-- Zero-valued struct, the default of a Solidity mapping
(the source field `exists` is named `present` here because `exists` is
reserved in Lean). -/
def Record.empty : Record :=
  { donor := 0, certHash := 0, eligible := false, timestamp := 0, present := false }

/-- Contract storage: the `records` mapping and the `admin` slot. -/
structure ContractState where
  records : Nat → Record
  admin : Nat

/-- Events declared by the contract. -/
inductive Event where
  | RecordAdded (donor certHash : Nat) (eligible : Bool) (timestamp verifier : Nat)
  | RecordUpdated (donor oldHash newHash : Nat) (eligible : Bool) (timestamp : Nat)
  | AdminChanged (oldAdmin newAdmin : Nat)
  deriving DecidableEq, Repr

/-- The constructor: the deployer becomes admin, all records absent. -/
def deploy (msgSender : Nat) : ContractState :=
  { records := fun _ => Record.empty, admin := msgSender }

/-- `storeVerification(_donor, _certHash, _eligible)`: the `onlyAdmin`
modifier runs first, then the non-empty-hash `require`; on success the
record is overwritten in place and a `RecordAdded` or `RecordUpdated`
event is emitted depending on whether a record already existed. -/
def storeVerification (msgSender blockTimestamp : Nat) (s : ContractState)
    (donor certHash : Nat) (eligible : Bool) :
    Except String (ContractState × List Event) :=
  if msgSender ≠ s.admin then
    .error "Only admin can call this function"
  else if certHash = 0 then
    .error "Certificate hash cannot be empty"
  else
    let isUpdate := (s.records donor).present
    let oldHash := (s.records donor).certHash
    let s' : ContractState :=
      { s with
        records := fun a =>
          if a = donor then
            { donor := donor, certHash := certHash, eligible := eligible,
              timestamp := blockTimestamp, present := true }
          else s.records a }
    if isUpdate then
      .ok (s', [Event.RecordUpdated donor oldHash certHash eligible blockTimestamp])
    else
      .ok (s', [Event.RecordAdded donor certHash eligible blockTimestamp msgSender])

/-- EVM semantics of a call to `storeVerification`: a revert rolls the
state back and emits nothing. -/
def execStoreVerification (msgSender blockTimestamp : Nat) (s : ContractState)
    (donor certHash : Nat) (eligible : Bool) : ContractState × List Event :=
  match storeVerification msgSender blockTimestamp s donor certHash eligible with
  | .error _ => (s, [])
  | .ok r => r

/-- `verify(_donor, _certHash)`: pure view returning
`(eligible, timestamp, matches)`. -/
def verify (s : ContractState) (donor certHash : Nat) : Bool × Nat × Bool :=
  let r := s.records donor
  if !r.present then
    (false, 0, false)
  else
    (r.eligible, r.timestamp, decide (r.certHash = certHash))

/-- `getRecord(_donor)`: pure view returning
`(certHash, eligible, timestamp, exists)`. -/
def getRecord (s : ContractState) (donor : Nat) : Nat × Bool × Nat × Bool :=
  let r := s.records donor
  (r.certHash, r.eligible, r.timestamp, r.present)

/-- `changeAdmin(_newAdmin)`: admin-gated, rejects the zero address. -/
def changeAdmin (msgSender : Nat) (s : ContractState) (newAdmin : Nat) :
    Except String (ContractState × List Event) :=
  if msgSender ≠ s.admin then
    .error "Only admin can call this function"
  else if newAdmin = 0 then
    .error "New admin cannot be zero address"
  else
    .ok ({ s with admin := newAdmin }, [Event.AdminChanged s.admin newAdmin])

/-- `hasRecord(_donor)`: existence check. -/
def hasRecord (s : ContractState) (donor : Nat) : Bool :=
  (s.records donor).present


/-- State update performed by a successful `storeVerification` call. -/
def writeRecord (s : ContractState) (d h : Nat) (e : Bool) (t : Nat) : ContractState :=
  { s with
    records := fun a =>
      if a = d then
        { donor := d, certHash := h, eligible := e, timestamp := t, present := true }
      else s.records a }

/-- Claim C2: a `storeVerification` call fails when the caller is not
the stored admin, and fails when the hash is the all-zero value; in both
failure cases the call reverts, the ledger state is unchanged
(`getRecord` answers identically before and after) and no event is
emitted. -/
theorem store_rejection_preserves_state (c t : Nat) (s : ContractState)
    (a h : Nat) (e : Bool) (hfail : c ≠ s.admin ∨ h = 0) :
    (∃ m, storeVerification c t s a h e = Except.error m) ∧
    execStoreVerification c t s a h e = (s, []) ∧
    ∀ x, getRecord (execStoreVerification c t s a h e).1 x = getRecord s x := by
  have herr : ∃ m, storeVerification c t s a h e = Except.error m := by
    by_cases hc : c = s.admin
    · rcases hfail with hc' | hh
      · exact absurd hc hc'
      · exact ⟨"Certificate hash cannot be empty", by simp [storeVerification, hc, hh]⟩
    · exact ⟨"Only admin can call this function", by simp [storeVerification, hc]⟩
  obtain ⟨m, hm⟩ := herr
  refine ⟨⟨m, hm⟩, ?_, ?_⟩
  · simp [execStoreVerification, hm]
  · intro x
    simp [execStoreVerification, hm]

theorem store_rejection_preserves_state_witness :
    (∃ m, storeVerification 2 7 (deploy 1) 3 5 true = Except.error m) ∧
    execStoreVerification 2 7 (deploy 1) 3 5 true = (deploy 1, []) ∧
    ∀ x, getRecord (execStoreVerification 2 7 (deploy 1) 3 5 true).1 x =
      getRecord (deploy 1) x :=
  store_rejection_preserves_state 2 7 (deploy 1) 3 5 true (Or.inl (by decide))

/-- Claim C3: the `verify` read returns `(false, 0, false)` when no
record exists for the address, and otherwise the stored eligibility, the
stored timestamp, and whether the supplied hash equals the stored one;
being a function of the state alone, it changes no state. -/
theorem verify_query_semantics (s : ContractState) (a h : Nat) :
    (hasRecord s a = false → verify s a h = (false, 0, false)) ∧
    (hasRecord s a = true →
      verify s a h = ((getRecord s a).2.1, (getRecord s a).2.2.1,
        decide ((getRecord s a).1 = h))) := by
  constructor
  · intro habs
    simp only [hasRecord] at habs
    simp [verify, habs]
  · intro hpres
    simp only [hasRecord] at hpres
    simp [verify, getRecord, hpres]

theorem verify_query_semantics_witness :
    verify (deploy 1) 5 7 = (false, 0, false) :=
  (verify_query_semantics (deploy 1) 5 7).1 (by decide)

/-- Claim C4: the `records` mapping keeps at most one record per
address (structural in this embedding: `records` is a total map), two
sequential successful writes for the same address leave `getRecord`
reflecting only the second write and touch no other address, the first
successful write for an address emits `RecordAdded`, and every
subsequent one emits `RecordUpdated` carrying the old hash. -/
theorem overwrite_semantics_and_events (c t₁ t₂ : Nat) (s : ContractState)
    (d h₁ h₂ : Nat) (e₁ e₂ : Bool)
    (hadmin : c = s.admin) (hh₁ : h₁ ≠ 0) (hh₂ : h₂ ≠ 0) :
    ∃ s₁ ev₁ s₂ ev₂,
      storeVerification c t₁ s d h₁ e₁ = Except.ok (s₁, ev₁) ∧
      storeVerification c t₂ s₁ d h₂ e₂ = Except.ok (s₂, ev₂) ∧
      getRecord s₂ d = (h₂, e₂, t₂, true) ∧
      (∀ a, a ≠ d → s₂.records a = s.records a) ∧
      ((s.records d).present = false → ev₁ = [Event.RecordAdded d h₁ e₁ t₁ c]) ∧
      ((s.records d).present = true →
        ev₁ = [Event.RecordUpdated d (s.records d).certHash h₁ e₁ t₁]) ∧
      ev₂ = [Event.RecordUpdated d h₁ h₂ e₂ t₂] := by
  have hadmin₁ : c = (writeRecord s d h₁ e₁ t₁).admin := hadmin
  have hpres₁ : ((writeRecord s d h₁ e₁ t₁).records d).present = true := by
    simp [writeRecord]
  have hold₁ : ((writeRecord s d h₁ e₁ t₁).records d).certHash = h₁ := by
    simp [writeRecord]
  refine ⟨writeRecord s d h₁ e₁ t₁,
    if (s.records d).present then
      [Event.RecordUpdated d (s.records d).certHash h₁ e₁ t₁]
    else [Event.RecordAdded d h₁ e₁ t₁ c],
    writeRecord (writeRecord s d h₁ e₁ t₁) d h₂ e₂ t₂,
    [Event.RecordUpdated d h₁ h₂ e₂ t₂], ?_, ?_, ?_, ?_, ?_, ?_, rfl⟩
  · by_cases hp : (s.records d).present <;>
      simp [storeVerification, hadmin, hh₁, hp, writeRecord]
  · simp [storeVerification, writeRecord, hadmin, hh₂]
  · simp [getRecord, writeRecord]
  · intro a ha
    simp [writeRecord, ha]
  · intro hp
    simp [hp]
  · intro hp
    simp [hp]

theorem overwrite_semantics_and_events_witness :
    ∃ s₁ ev₁ s₂ ev₂,
      storeVerification 1 10 (deploy 1) 3 5 true = Except.ok (s₁, ev₁) ∧
      storeVerification 1 20 s₁ 3 9 false = Except.ok (s₂, ev₂) ∧
      getRecord s₂ 3 = (9, false, 20, true) ∧
      (∀ a, a ≠ 3 → s₂.records a = (deploy 1).records a) ∧
      (((deploy 1).records 3).present = false →
        ev₁ = [Event.RecordAdded 3 5 true 10 1]) ∧
      (((deploy 1).records 3).present = true →
        ev₁ = [Event.RecordUpdated 3 ((deploy 1).records 3).certHash 5 true 10]) ∧
      ev₂ = [Event.RecordUpdated 3 5 9 false 20] :=
  overwrite_semantics_and_events 1 10 20 (deploy 1) 3 5 9 true false rfl
    (by decide) (by decide)


end DonorVerification



set_option maxRecDepth 4000 in
lemma byteToHex_spec : ∀ b, b < 256 →
    (byteToHex b).data.length = 2 ∧ (byteToHex b).data.all isLowerHexChar = true := by
  decide

lemma data_join (L : List String) :
    (String.join L).data = (L.map String.data).flatten := by
  have h : ∀ acc : String,
      (L.foldl (· ++ ·) acc).data = acc.data ++ (L.map String.data).flatten := by
    induction L with
    | nil => intro acc; simp [List.foldl]
    | cons x xs ih =>
      intro acc
      simp [List.foldl, ih, String.data_append]
  simpa [String.join] using h ""

lemma joined_hex_props (l : List Nat) (h : ∀ x ∈ l, x < 256) :
    ((l.map byteToHex).map String.data).flatten.length = 2 * l.length ∧
    ((l.map byteToHex).map String.data).flatten.all isLowerHexChar = true := by
  induction l with
  | nil => simp
  | cons x xs ih =>
    have hx : x < 256 := h x (by simp)
    have hxs : ∀ y ∈ xs, y < 256 := fun y hy => h y (by simp [hy])
    obtain ⟨ih1, ih2⟩ := ih hxs
    obtain ⟨hl, ha⟩ := byteToHex_spec x hx
    refine ⟨?_, ?_⟩
    · simp only [List.map_cons, List.flatten_cons, List.length_append, ih1, hl,
        List.length_cons]
      ring
    · simp only [List.map_cons, List.flatten_cons, List.all_append, ih2, ha,
        Bool.and_true]

/-- Claim C1: for every byte sequence, the client-side
`computeCertificateHash` and the server-side `computeFileHash` return
the same string, namely the SHA-256 digest rendered as exactly 64
lowercase hex characters prefixed with `0x`.  Determinism over the
input bytes is inherent: both embeddings are pure functions of the
bytes and the shared digest primitive. -/
theorem client_server_hash_agree (sha256 : List Nat → List Nat) (b : List Nat)
    (hlen : (sha256 b).length = 32) (hbyte : ∀ x ∈ sha256 b, x < 256) :
    computeCertificateHash true sha256 b = .ok (computeFileHash sha256 b) ∧
    ∃ rest : List Char, (computeFileHash sha256 b).data = '0' :: 'x' :: rest ∧
      rest.length = 64 ∧ rest.all isLowerHexChar = true := by
  refine ⟨rfl, ⟨((sha256 b).map byteToHex |>.map String.data).flatten, ?_, ?_, ?_⟩⟩
  · show ("0x" ++ String.join ((sha256 b).map byteToHex)).data = _
    rw [String.data_append, data_join]
    rfl
  · rw [(joined_hex_props (sha256 b) hbyte).1, hlen]
  · exact (joined_hex_props (sha256 b) hbyte).2

theorem client_server_hash_agree_witness :
    computeCertificateHash true demoSha [] = .ok (computeFileHash demoSha []) ∧
    ∃ rest : List Char, (computeFileHash demoSha []).data = '0' :: 'x' :: rest ∧
      rest.length = 64 ∧ rest.all isLowerHexChar = true :=
  client_server_hash_agree demoSha [] (by decide) (by decide)



/-! Embedding of `services/blockchainVerificationService.js` (read-only
blockchain queries).  Each service function wraps a contract call whose
outcome (successful return value, or a thrown/transport error) is passed
in as an `Except`; the `try`/`catch` of the source becomes the `match`
on that `Except`. -/

namespace Service

/-- Result object of `verifyHashOnBlockchain`; `timestampDate` models the
`Date` value, `none` standing for JS `null`. -/
structure VerifyHashResult where
  eligible : Bool
  timestamp : Nat
  matchesHash : Bool
  timestampDate : Option Nat
  deriving DecidableEq, Repr

/-- `verifyHashOnBlockchain(donorAddress, certHash)`: returns the tuple
from `contract.verify` as a result object; a failing contract call is
rethrown with the `Blockchain verification failed:` prefix. -/
def verifyHashOnBlockchain (call : Except String (Bool × Nat × Bool)) :
    Except String VerifyHashResult :=
  match call with
  | .error m => .error ("Blockchain verification failed: " ++ m)
  | .ok (eligible, timestamp, matchesHash) =>
      .ok { eligible := eligible, timestamp := timestamp, matchesHash := matchesHash,
            timestampDate := if timestamp > 0 then some timestamp else none }

/-- Result object of `getDonorBlockchainRecord` (the source field
`exists` is named `present`). -/
structure DonorRecordResult where
  certHash : Nat
  eligible : Bool
  timestamp : Nat
  timestampDate : Nat
  present : Bool
  deriving DecidableEq, Repr

/-- `getDonorBlockchainRecord(donorAddress)`: returns `null` (`none`)
when the ledger record's `exists` flag is false, the record otherwise; a
failing contract call is rethrown with the `Failed to fetch blockchain
record:` prefix. -/
def getDonorBlockchainRecord (call : Except String (Nat × Bool × Nat × Bool)) :
    Except String (Option DonorRecordResult) :=
  match call with
  | .error m => .error ("Failed to fetch blockchain record: " ++ m)
  | .ok (certHash, eligible, timestamp, ex) =>
      if !ex then
        .ok none
      else
        .ok (some { certHash := certHash, eligible := eligible, timestamp := timestamp,
                    timestampDate := timestamp, present := ex })

/-- `hasBlockchainRecord(donorAddress)`: returns the contract's answer,
and `false` when the query itself throws (the `catch` branch). -/
def hasBlockchainRecord (call : Except String Bool) : Bool :=
  match call with
  | .ok b => b
  | .error _ => false

end Service

open DonorVerification in
/-- Claim C8: a negative verification outcome is a returned value,
never a thrown failure: when the contract call itself succeeds,
`verifyHashOnBlockchain` returns an `.ok` result whose `matches` field
is true exactly when a record exists and its hash equals the supplied
one (so a mismatch is a returned `matches = false`), and
`getDonorBlockchainRecord` returns the not-found value `none` exactly
when the ledger record's `exists` flag is false. -/
theorem negative_verdicts_are_values (s : DonorVerification.ContractState) (a h : Nat) :
    (∃ r, Service.verifyHashOnBlockchain (.ok (DonorVerification.verify s a h)) =
        .ok r ∧
      (r.matchesHash = true ↔ (s.records a).present = true ∧ (s.records a).certHash = h)) ∧
    (Service.getDonorBlockchainRecord (.ok (DonorVerification.getRecord s a)) = .ok none ↔
      DonorVerification.hasRecord s a = false) := by
  constructor
  · by_cases hp : (s.records a).present
    · refine ⟨⟨(s.records a).eligible, (s.records a).timestamp,
          decide ((s.records a).certHash = h),
          if (s.records a).timestamp > 0 then
            some (s.records a).timestamp else none⟩, ?_, ?_⟩
      · simp [DonorVerification.verify, hp, Service.verifyHashOnBlockchain]
      · simp [hp]
    · refine ⟨⟨false, 0, false, none⟩, ?_, ?_⟩
      · simp [DonorVerification.verify, hp, Service.verifyHashOnBlockchain]
      · simp [hp]
  · by_cases hp : (s.records a).present <;>
      simp [Service.getDonorBlockchainRecord, DonorVerification.getRecord,
        DonorVerification.hasRecord, hp]

/-- Claim C10: `hasBlockchainRecord` never throws (it is total with a
`Bool` result in this embedding of its `try`/`catch`), returns `false`
when the ledger query itself fails, and returns the record's existence
flag when the query succeeds — hence `false` for an absent record,
making ledger unavailability indistinguishable from record absence. -/
theorem hasBlockchainRecord_defaults_false :
    (∀ m, Service.hasBlockchainRecord (.error m) = false) ∧
    (∀ (s : DonorVerification.ContractState) (a : Nat),
      Service.hasBlockchainRecord (.ok (DonorVerification.hasRecord s a)) =
        (s.records a).present) ∧
    Service.hasBlockchainRecord (.ok false) = false := by
  refine ⟨fun m => rfl, fun s a => rfl, rfl⟩



/-! Embedding of `ethers.isAddress` / `ethers.getAddress` (ethers v6),
the address validation used by the `verify-certificate` Edge Function.
The keccak-256 primitive used by the EIP-55 checksum is a parameter. -/

namespace Ethers

/-- JS `.toLowerCase()` on ASCII strings, in a kernel-reducible form. -/
def toLowerStr (s : String) : String := String.mk (s.data.map Char.toLower)

/-- JS `.toUpperCase()` on ASCII strings, in a kernel-reducible form. -/
def toUpperStr (s : String) : String := String.mk (s.data.map Char.toUpper)

/-- JS `.startsWith('0x')`, in a kernel-reducible form. -/
def startsWith0x (s : String) : Bool := s.take 2 == "0x"

/-- The shape test `/^(0x)?[0-9a-fA-F]{40}$/` of `getAddress`. -/
def hex40Shape (address : String) : Bool :=
  let t := if startsWith0x address then address.drop 2 else address
  t.length == 40 && t.data.all isHexChar

/-- The mixed-case test `/([A-F].*[a-f])|([a-f].*[A-F])/`: the string
holds an uppercase hex letter and a lowercase one (in either order). -/
def mixedCaseShape (address : String) : Bool :=
  (address.data.any fun c => 'A' ≤ c && c ≤ 'F') &&
    (address.data.any fun c => 'a' ≤ c && c ≤ 'f')

/-- `getChecksumAddress`: lowercase the address, keccak-hash the ASCII
codes of its 40 hex digits, and uppercase each digit whose corresponding
hash nibble is at least 8. -/
def getChecksumAddress (keccak256 : List Nat → List Nat) (address : String) : String :=
  let address := toLowerStr address
  let chars := (address.drop 2).data
  let expanded := chars.map Char.toNat
  let hashed := keccak256 expanded
  let cased := (List.range 40).map fun i =>
    let byte := hashed.getD (i / 2) 0
    let nibble := if i % 2 == 0 then byte / 16 else byte % 16
    if nibble ≥ 8 then (chars.getD i ' ').toUpper else chars.getD i ' '
  "0x" ++ String.mk cased

/-- `ibanChecksum`: the ISO 13616 mod-97 check of the ICAP branch,
digits contributing one decimal digit and letters two (A=10 … Z=35). -/
def ibanChecksum (address : String) : String :=
  let address := toUpperStr address
  let rearranged := address.drop 4 ++ address.take 2 ++ "00"
  let n := rearranged.data.foldl
    (fun acc c => if c.isDigit then acc * 10 + (c.toNat - 48) else acc * 100 + (c.toNat - 55)) 0
  let checksum := 98 - n % 97
  (if checksum < 10 then "0" else "") ++ toString checksum

/-- `fromBase36` on an alphanumeric string (case-insensitive letters). -/
def fromBase36 (s : String) : Nat :=
  s.data.foldl
    (fun acc c => acc * 36 + (if c.isDigit then c.toNat - 48 else c.toLower.toNat - 87)) 0

/-- The ICAP shape test `/^XE[0-9]{2}[0-9A-Za-z]{30,31}$/`. -/
def icapShape (address : String) : Bool :=
  address.take 2 == "XE" &&
    ((address.drop 2).take 2).length == 2 &&
    ((address.drop 2).take 2).data.all Char.isDigit &&
    (let rest := address.drop 4
     (rest.length == 30 || rest.length == 31) && rest.data.all Char.isAlphanum)

/-- The base-36 ICAP payload rendered as 40 hex characters
(`toString(16)` left-padded with zeros). -/
def natToHex40 (n : Nat) : String :=
  let s := String.mk (Nat.toDigits 16 n)
  String.mk (List.replicate (40 - s.length) '0') ++ s

/-- `ethers.getAddress` (v6): accepts 40 hex characters with an optional
`0x` prefix, enforcing the EIP-55 checksum only for mixed-case input,
and direct-mode ICAP addresses with a valid IBAN checksum; anything else
is rejected. -/
def getAddress (keccak256 : List Nat → List Nat) (address : String) :
    Except String String :=
  if hex40Shape address then
    let address := if startsWith0x address then address else "0x" ++ address
    let result := getChecksumAddress keccak256 address
    if mixedCaseShape address && result != address then
      .error "bad address checksum"
    else
      .ok result
  else if icapShape address then
    if (address.drop 2).take 2 ≠ ibanChecksum address then
      .error "bad icap checksum"
    else
      .ok (getChecksumAddress keccak256 ("0x" ++ natToHex40 (fromBase36 (address.drop 4))))
  else
    .error "invalid address"

/-- `ethers.isAddress`: `getAddress` without the exception. -/
def isAddress (keccak256 : List Nat → List Nat) (address : String) : Bool :=
  match getAddress keccak256 address with
  | .ok _ => true
  | .error _ => false

end Ethers

/-- A fixed keccak function used to instantiate witness theorems and
counterexamples on inputs whose validity does not depend on the hash. -/
def demoKeccak (_b : List Nat) : List Nat := List.replicate 32 0

/-! Embedding of the client React components: the donor upload form
(`CertificateUpload.jsx`), and the public verification form
(`CertificateVerification`, `src/unnamed/part_004`).  Each handler
returns the error it would display (`none` when no error was set) and
the list of external operations it performed; collaborator outcomes are
passed in as `Except` values. -/

namespace Client

/-- External operations a client handler can perform. -/
inductive ClientEffect where
  | storageUpload
  | dbInsert
  | chainVerify
  | chainGetRecord
  deriving DecidableEq, Repr

/-- The wallet-address regex `/^0x[a-fA-F0-9]{40}$/` shared by the
upload, verify-by-file and lookup-by-address forms. -/
def isWalletAddressFormat (s : String) : Bool :=
  s.take 2 == "0x" && (s.drop 2).length == 40 && (s.drop 2).data.all isHexChar

/-- `handleSubmit` of `CertificateUpload.jsx`: missing-input guard, the
address regex, client-side hash, storage upload, then the database
insert.  `file = none` models no selected file. -/
def handleSubmit (file : Option (List Nat)) (walletAddress : String)
    (cryptoAvailable : Bool) (sha256 : List Nat → List Nat)
    (uploadRes : Except String String) (insertRes : Except String Unit) :
    Option String × List ClientEffect :=
  if file.isNone || walletAddress == "" then
    (some "Please select a file and enter your wallet address", [])
  else if !(isWalletAddressFormat walletAddress) then
    (some "Invalid Ethereum wallet address format", [])
  else
    match file with
    | none => (some "Please select a file and enter your wallet address", [])
    | some bytes =>
      match computeCertificateHash cryptoAvailable sha256 bytes with
      | .error m => (some m, [])
      | .ok _certHash =>
        match uploadRes with
        | .error m => (some ("Upload failed: " ++ m), [ClientEffect.storageUpload])
        | .ok _path =>
          match insertRes with
          | .error m =>
              (some ("Failed to create record: " ++ m),
                [ClientEffect.storageUpload, ClientEffect.dbInsert])
          | .ok _ => (none, [ClientEffect.storageUpload, ClientEffect.dbInsert])

/-- `handleVerifyFile` of the public verification form: missing-input
guard, the address regex, client-side hash, then the read-only contract
`verify` call through `verifyHashOnBlockchain`. -/
def handleVerifyFile (file : Option (List Nat)) (walletAddress : String)
    (cryptoAvailable : Bool) (sha256 : List Nat → List Nat)
    (verifyCall : Except String (Bool × Nat × Bool)) :
    Option String × List ClientEffect :=
  if file.isNone || walletAddress == "" then
    (some "Please select a file and enter wallet address", [])
  else if !(isWalletAddressFormat walletAddress) then
    (some "Invalid Ethereum wallet address format", [])
  else
    match file with
    | none => (some "Please select a file and enter wallet address", [])
    | some bytes =>
      match computeCertificateHash cryptoAvailable sha256 bytes with
      | .error m => (some m, [])
      | .ok _certHash =>
        match Service.verifyHashOnBlockchain verifyCall with
        | .error m => (some m, [ClientEffect.chainVerify])
        | .ok _r => (none, [ClientEffect.chainVerify])

/-- `handleLookupAddress` of the public verification form: missing-input
guard, the address regex, then `getDonorBlockchainRecord`; an absent
record yields the no-record message, not a thrown failure. -/
def handleLookupAddress (lookupAddress : String)
    (recordCall : Except String (Nat × Bool × Nat × Bool)) :
    Option String × List ClientEffect :=
  if lookupAddress == "" then
    (some "Please enter a wallet address", [])
  else if !(isWalletAddressFormat lookupAddress) then
    (some "Invalid Ethereum wallet address format", [])
  else
    match Service.getDonorBlockchainRecord recordCall with
    | .error m => (some m, [ClientEffect.chainGetRecord])
    | .ok none =>
        (some "No verification record found for this address", [ClientEffect.chainGetRecord])
    | .ok (some _r) => (none, [ClientEffect.chainGetRecord])

end Client



/-! Embedding of the `verify-certificate` Edge Function
(`supabase/functions/verify-certificate/index.ts`).  The handler is a
linear sequence of fallible steps; each collaborator outcome (auth,
profile query, certificate fetch, file download, transaction submission,
confirmation, database update) is a field of `EdgeEnv`.  The handler
returns the HTTP response it would serve together with the list of
external operations it performed, in order; a thrown error reaches the
single `catch` and becomes a status-400 response carrying the message. -/

namespace Edge

/-- Row of the `donor_certificates` table, with the columns the core
reads or writes (`none` models SQL `null`). -/
structure CertRow where
  id : String
  donor_id : String
  file_path : String
  cert_hash : Option String
  eligible : Option Bool
  tx_hash : Option String
  chain_address : Option String
  admin_notes : Option String
  deriving DecidableEq, Repr

/-- Request body of the Edge Function (`VerifyRequest` in the source);
`none` models an absent JSON field.  The body carries no hash field:
the handler has no way to receive a client-supplied hash. -/
structure VerifyRequest where
  certificateId : Option String
  donorWalletAddress : Option String
  eligible : Bool
  adminNotes : Option String
  deriving DecidableEq, Repr

/-- External operations of one handler run, in execution order.  The
`dbWrite` effect records the attempted `donor_certificates` update (its
claim-relevant columns) and whether the update succeeded. -/
inductive EdgeEffect where
  | fetchCert (certificateId : String)
  | download (path : String)
  | ledgerWrite (donor certHash : String) (eligible : Bool)
  | ledgerConfirm (blockNumber : Nat)
  | dbWrite (certificateId certHash : String) (eligible : Bool) (txHash : String) (ok : Bool)
  deriving DecidableEq, Repr

instance : Inhabited EdgeEffect := ⟨EdgeEffect.fetchCert ""⟩

/-- Environment of one handler run: the request and the outcome each
collaborator would produce if called. -/
structure EdgeEnv where
  authHeader : Option String
  authUser : Except String String
  profileRole : Except String (Option String)
  body : VerifyRequest
  certRow : Except String (Option CertRow)
  fileDownload : Except String (List Nat)
  configOk : Bool
  sha256 : List Nat → List Nat
  keccak256 : List Nat → List Nat
  submitTx : Except String String
  waitTx : Except String Nat
  dbUpdate : Except String Unit

/-- The served HTTP response plus the run's effect trace. -/
structure EdgeResponse where
  status : Nat
  success : Bool
  errorMsg : Option String
  certHash : Option String
  txHash : Option String
  effects : List EdgeEffect
  deriving DecidableEq, Repr

/-- The `catch` branch: every thrown error becomes a 400 response whose
body is the error message. -/
def errResponse (m : String) (effs : List EdgeEffect) : EdgeResponse :=
  { status := 400, success := false, errorMsg := some m,
    certHash := none, txHash := none, effects := effs }

/-- JS falsiness of the request string fields (`!certificateId`):
absent or empty. -/
def isFalsyStr : Option String → Bool
  | none => true
  | some s => s == ""

/-- Whether an `Except`-modelled collaborator call failed. -/
def failed : Except String α → Bool
  | .error _ => true
  | .ok _ => false

/-- The request handler passed to `serve`. -/
def edgeHandler (env : EdgeEnv) : EdgeResponse :=
  match env.authHeader with
  | none => errResponse "Missing authorization header" []
  | some _token =>
  match env.authUser with
  | .error _ => errResponse "Unauthorized" []
  | .ok _userId =>
  match env.profileRole with
  | .error _ => errResponse "Only hospital staff can verify certificates" []
  | .ok none => errResponse "Only hospital staff can verify certificates" []
  | .ok (some role) =>
  if role != "hospital" then
    errResponse "Only hospital staff can verify certificates" []
  else if isFalsyStr env.body.certificateId || isFalsyStr env.body.donorWalletAddress then
    errResponse "Missing required fields: certificateId, donorWalletAddress" []
  else
    let certificateId := env.body.certificateId.getD ""
    let donorWalletAddress := env.body.donorWalletAddress.getD ""
    if !(Ethers.isAddress env.keccak256 donorWalletAddress) then
      errResponse "Invalid Ethereum address format" []
    else
      match env.certRow with
      | .error _ => errResponse "Certificate not found" [EdgeEffect.fetchCert certificateId]
      | .ok none => errResponse "Certificate not found" [EdgeEffect.fetchCert certificateId]
      | .ok (some certificate) =>
      match env.fileDownload with
      | .error m =>
          errResponse ("Failed to download certificate file: " ++ m)
            [EdgeEffect.fetchCert certificateId, EdgeEffect.download certificate.file_path]
      | .ok fileBytes =>
      let certHash := computeFileHash env.sha256 fileBytes
      if !env.configOk then
        errResponse "Missing blockchain configuration environment variables"
          [EdgeEffect.fetchCert certificateId, EdgeEffect.download certificate.file_path]
      else
        match env.submitTx with
        | .error m =>
            errResponse m
              [EdgeEffect.fetchCert certificateId, EdgeEffect.download certificate.file_path,
               EdgeEffect.ledgerWrite donorWalletAddress certHash env.body.eligible]
        | .ok txHash =>
        match env.waitTx with
        | .error m =>
            errResponse m
              [EdgeEffect.fetchCert certificateId, EdgeEffect.download certificate.file_path,
               EdgeEffect.ledgerWrite donorWalletAddress certHash env.body.eligible]
        | .ok blockNumber =>
        match env.dbUpdate with
        | .error _ =>
            errResponse "Blockchain verification successful but database update failed"
              [EdgeEffect.fetchCert certificateId, EdgeEffect.download certificate.file_path,
               EdgeEffect.ledgerWrite donorWalletAddress certHash env.body.eligible,
               EdgeEffect.ledgerConfirm blockNumber,
               EdgeEffect.dbWrite certificateId certHash env.body.eligible txHash false]
        | .ok _ =>
            { status := 200, success := true, errorMsg := none,
              certHash := some certHash, txHash := some txHash,
              effects :=
                [EdgeEffect.fetchCert certificateId, EdgeEffect.download certificate.file_path,
                 EdgeEffect.ledgerWrite donorWalletAddress certHash env.body.eligible,
                 EdgeEffect.ledgerConfirm blockNumber,
                 EdgeEffect.dbWrite certificateId certHash env.body.eligible txHash true] }

/-- Recognizer for the Record Store mutation effect. -/
def isDbWrite : EdgeEffect → Bool
  | .dbWrite _ _ _ _ _ => true
  | _ => false

/-- Success flag of a `dbWrite` effect (`true` on non-`dbWrite`). -/
def dbWriteOk : EdgeEffect → Bool
  | .dbWrite _ _ _ _ ok => ok
  | _ => true

/-- Recognizer for the ledger write submission effect. -/
def isLedgerWrite : EdgeEffect → Bool
  | .ledgerWrite _ _ _ => true
  | _ => false

/-- Recognizer for the observed ledger confirmation effect. -/
def isLedgerConfirm : EdgeEffect → Bool
  | .ledgerConfirm _ => true
  | _ => false

/-- Scan of a trace checking that every Record Store mutation is
strictly preceded by a ledger write submission (`seenW`) and by an
observed confirmation (`seenC`). -/
def dbWriteAfterLedgerGo : List EdgeEffect → Bool → Bool → Bool
  | [], _seenW, _seenC => true
  | e :: rest, seenW, seenC =>
      (if isDbWrite e then seenW && seenC else true) &&
        dbWriteAfterLedgerGo rest (seenW || isLedgerWrite e) (seenC || isLedgerConfirm e)

/-- Every Record Store mutation in the trace is strictly preceded by a
ledger write submission and by an observed confirmation. -/
def dbWriteAfterLedger (l : List EdgeEffect) : Bool :=
  dbWriteAfterLedgerGo l false false

/-- Semantics of an effect on a `donor_certificates` row: only a
successful `dbWrite` addressed at the row changes it. -/
def applyEdgeEffect (row : CertRow) : EdgeEffect → CertRow
  | .dbWrite cid h e tx ok =>
      if ok && cid == row.id then
        { row with cert_hash := some h, eligible := some e, tx_hash := some tx }
      else row
  | _ => row

/-- A trace folded over a row. -/
def applyEdgeEffects (row : CertRow) (l : List EdgeEffect) : CertRow :=
  l.foldl applyEdgeEffect row

/-- The hashes this run submitted to the ledger. -/
def ledgerWriteHashes (l : List EdgeEffect) : List String :=
  l.filterMap fun e =>
    match e with
    | .ledgerWrite _ h _ => some h
    | _ => none

/-- An environment identical but for the stored `cert_hash` column of
the fetched certificate row. -/
def setRowCertHash (env : EdgeEnv) (hv : Option String) : EdgeEnv :=
  { env with
    certRow := env.certRow.map fun o => o.map fun r => { r with cert_hash := hv } }

/-- The machine-readable discriminator of a response: HTTP status and
the `success` flag. -/
def errorKind (r : EdgeResponse) : Nat × Bool := (r.status, r.success)


set_option maxHeartbeats 1000000 in
/-- Exhaustive description of the runs of `edgeHandler`: the effect
trace it produces and the collaborator outcomes that produce it. -/
lemma edgeHandler_traces (env : EdgeEnv) :
    (edgeHandler env).effects = [] ∨
    (∃ cid, (edgeHandler env).effects = [EdgeEffect.fetchCert cid]) ∨
    (∃ cid p, (edgeHandler env).effects = [EdgeEffect.fetchCert cid, EdgeEffect.download p]) ∨
    (∃ cid p d bytes m,
      edgeHandler env = errResponse m
        [EdgeEffect.fetchCert cid, EdgeEffect.download p,
         EdgeEffect.ledgerWrite d (computeFileHash env.sha256 bytes) env.body.eligible] ∧
      env.fileDownload = Except.ok bytes ∧
      (env.submitTx = Except.error m ∨ env.waitTx = Except.error m)) ∨
    (∃ cid p d bytes tx bn,
      edgeHandler env =
        errResponse "Blockchain verification successful but database update failed"
          [EdgeEffect.fetchCert cid, EdgeEffect.download p,
           EdgeEffect.ledgerWrite d (computeFileHash env.sha256 bytes) env.body.eligible,
           EdgeEffect.ledgerConfirm bn,
           EdgeEffect.dbWrite cid (computeFileHash env.sha256 bytes) env.body.eligible tx false] ∧
      env.fileDownload = Except.ok bytes ∧ env.submitTx = Except.ok tx ∧
      env.waitTx = Except.ok bn ∧ failed env.dbUpdate = true) ∨
    (∃ cid p d bytes tx bn,
      edgeHandler env =
        { status := 200, success := true, errorMsg := none,
          certHash := some (computeFileHash env.sha256 bytes), txHash := some tx,
          effects := [EdgeEffect.fetchCert cid, EdgeEffect.download p,
            EdgeEffect.ledgerWrite d (computeFileHash env.sha256 bytes) env.body.eligible,
            EdgeEffect.ledgerConfirm bn,
            EdgeEffect.dbWrite cid (computeFileHash env.sha256 bytes) env.body.eligible tx true] } ∧
      env.fileDownload = Except.ok bytes ∧ env.submitTx = Except.ok tx ∧
      env.waitTx = Except.ok bn ∧ env.dbUpdate = Except.ok ()) := by
  simp only [edgeHandler]
  repeat' split
  all_goals first
    | exact Or.inl rfl
    | exact Or.inr (Or.inl ⟨_, rfl⟩)
    | exact Or.inr (Or.inr (Or.inl ⟨_, _, rfl⟩))
    | (refine Or.inr (Or.inr (Or.inr (Or.inl ⟨_, _, _, _, _, rfl, ?_, Or.inl ?_⟩))) <;>
        assumption)
    | (refine Or.inr (Or.inr (Or.inr (Or.inl ⟨_, _, _, _, _, rfl, ?_, Or.inr ?_⟩))) <;>
        assumption)
    | (refine Or.inr (Or.inr (Or.inr (Or.inr
        (Or.inr ⟨_, _, _, _, _, _, rfl, ?_, ?_, ?_, ?_⟩)))) <;> assumption)
    | (refine Or.inr (Or.inr (Or.inr (Or.inr
        (Or.inl ⟨_, _, _, _, _, _, rfl, ?_, ?_, ?_, ?_⟩)))) <;>
        first | assumption | simp_all [failed])


/-- A concrete certificate row used to instantiate witness theorems. -/
def demoRow : CertRow :=
  { id := "cert-1", donor_id := "donor-1", file_path := "donor-1/1_cert.pdf",
    cert_hash := none, eligible := none, tx_hash := none,
    chain_address := none, admin_notes := none }

/-- A concrete request body used to instantiate witness theorems. -/
def demoBody : VerifyRequest :=
  { certificateId := some "cert-1",
    donorWalletAddress := some "0xaaaaaaaaaaaaaaaaaaaaaaaaaaaaaaaaaaaaaaaa",
    eligible := true, adminNotes := none }

/-- A run in which every collaborator succeeds. -/
def demoEnvOk : EdgeEnv :=
  { authHeader := some "Bearer token-1", authUser := .ok "staff-1",
    profileRole := .ok (some "hospital"), body := demoBody,
    certRow := .ok (some demoRow), fileDownload := .ok [1, 2, 3],
    configOk := true, sha256 := demoSha, keccak256 := demoKeccak,
    submitTx := .ok "0xtxhash", waitTx := .ok 7, dbUpdate := .ok () }

/-- A run in which only the final database update fails. -/
def demoEnvDbFail : EdgeEnv := { demoEnvOk with dbUpdate := .error "db down" }

/-- A run in which the ledger transaction submission fails. -/
def demoEnvLedgerFail : EdgeEnv := { demoEnvOk with submitTx := .error "ledger down" }

/-- A run with a malformed donor address. -/
def demoEnvBadAddr : EdgeEnv :=
  { demoEnvOk with body := { demoBody with donorWalletAddress := some "zzz" } }

/-- Claim C5: in every run of the `verify-certificate` handler, any
Record Store mutation is strictly preceded by the ledger write
submission and by its observed confirmation; and whenever the ledger
write fails (at submission or while awaiting confirmation), the trace
holds no Record Store mutation at all, so every `donor_certificates`
row — in particular its eligibility and transaction-hash columns — is
left unchanged. -/
theorem ledger_write_precedes_db_update (env : EdgeEnv) :
    dbWriteAfterLedger (edgeHandler env).effects = true ∧
    (failed env.submitTx = true ∨ failed env.waitTx = true →
      ((edgeHandler env).effects.all fun e => !(isDbWrite e)) = true ∧
      ∀ row, applyEdgeEffects row (edgeHandler env).effects = row) := by
  have htr := edgeHandler_traces env
  constructor
  · rcases htr with h | ⟨cid, h⟩ | ⟨cid, p, h⟩ | ⟨cid, p, d, bytes, m, h, hfd, hsw⟩ |
      ⟨cid, p, d, bytes, tx, bn, h, hfd, hst, hwt, hdb⟩ |
      ⟨cid, p, d, bytes, tx, bn, h, hfd, hst, hwt, hdb⟩ <;> rw [h] <;> rfl
  · intro hfail
    rcases htr with h | ⟨cid, h⟩ | ⟨cid, p, h⟩ | ⟨cid, p, d, bytes, m, h, hfd, hsw⟩ |
      ⟨cid, p, d, bytes, tx, bn, h, hfd, hst, hwt, hdb⟩ |
      ⟨cid, p, d, bytes, tx, bn, h, hfd, hst, hwt, hdb⟩
    · exact ⟨by rw [h]; rfl, fun row => by rw [h]; rfl⟩
    · exact ⟨by rw [h]; rfl, fun row => by rw [h]; rfl⟩
    · exact ⟨by rw [h]; rfl, fun row => by rw [h]; rfl⟩
    · exact ⟨by rw [h]; rfl, fun row => by rw [h]; rfl⟩
    · exfalso
      rcases hfail with hf | hf
      · rw [hst] at hf; simp [failed] at hf
      · rw [hwt] at hf; simp [failed] at hf
    · exfalso
      rcases hfail with hf | hf
      · rw [hst] at hf; simp [failed] at hf
      · rw [hwt] at hf; simp [failed] at hf

set_option maxRecDepth 8000 in
theorem ledger_write_precedes_db_update_witness :
    ((edgeHandler demoEnvLedgerFail).effects.all fun e => !(isDbWrite e)) = true ∧
    ∀ row, applyEdgeEffects row (edgeHandler demoEnvLedgerFail).effects = row :=
  (ledger_write_precedes_db_update demoEnvLedgerFail).2 (Or.inl (by decide))


set_option maxRecDepth 8000 in
/-- Claim C6 counterexample: the inconsistency failure (database
update failed after a successful ledger write) is served with the very
same machine-readable kind — HTTP status 400 and `success = false` — as
an ordinary validation error; only the human-readable message string
differs, so it is not a distinct, higher-severity error kind. -/
theorem inconsistency_error_kind_not_distinct :
    errorKind (edgeHandler demoEnvDbFail) = errorKind (edgeHandler demoEnvBadAddr) ∧
    (edgeHandler demoEnvDbFail).errorMsg =
      some "Blockchain verification successful but database update failed" ∧
    (edgeHandler demoEnvBadAddr).errorMsg = some "Invalid Ethereum address format" ∧
    (edgeHandler demoEnvDbFail).status = 400 ∧
    (edgeHandler demoEnvDbFail).success = false := by
  refine ⟨by decide, by decide, by decide, by decide, by decide⟩

/-- Claim C6 (amended): when the Record Store update fails after a
successful ledger write, the handler surfaces the failure — it is not
swallowed: the response carries `success = false` and the fixed message
`Blockchain verification successful but database update failed`, a
message distinct from every other fixed message the handler produces —
and it does not retry the ledger write (the trace holds exactly one
ledger write submission); the response's status code (400) and shape
are however the same as every other error's. -/
theorem db_failure_after_ledger_success_reported (env : EdgeEnv)
    (h : ∃ e ∈ (edgeHandler env).effects, isDbWrite e = true ∧ dbWriteOk e = false) :
    (edgeHandler env).status = 400 ∧
    (edgeHandler env).success = false ∧
    (edgeHandler env).errorMsg =
      some "Blockchain verification successful but database update failed" ∧
    ((edgeHandler env).effects.filter isLedgerWrite).length = 1 := by
  rcases edgeHandler_traces env with ht | ⟨cid, ht⟩ | ⟨cid, p, ht⟩ |
    ⟨cid, p, d, bytes, m, ht, hfd, hsw⟩ |
    ⟨cid, p, d, bytes, tx, bn, ht, hfd, hst, hwt, hdb⟩ |
    ⟨cid, p, d, bytes, tx, bn, ht, hfd, hst, hwt, hdb⟩
  · rw [ht] at h; simp at h
  · rw [ht] at h; simp [isDbWrite] at h
  · rw [ht] at h; simp [isDbWrite] at h
  · rw [ht] at h; simp [errResponse, isDbWrite] at h
  · rw [ht]
    refine ⟨rfl, rfl, rfl, rfl⟩
  · rw [ht] at h; simp [dbWriteOk, isDbWrite] at h

set_option maxRecDepth 8000 in
theorem db_failure_after_ledger_success_reported_witness :
    (edgeHandler demoEnvDbFail).status = 400 ∧
    (edgeHandler demoEnvDbFail).success = false ∧
    (edgeHandler demoEnvDbFail).errorMsg =
      some "Blockchain verification successful but database update failed" ∧
    ((edgeHandler demoEnvDbFail).effects.filter isLedgerWrite).length = 1 :=
  db_failure_after_ledger_success_reported demoEnvDbFail (by decide)

/-- Claim C7: every hash the handler submits to the ledger is the
hash of the bytes freshly downloaded from the file store in that same
run, and is independent of the stored `cert_hash` column (and of any
client-supplied hash: the request shape `VerifyRequest` has no hash
field at all). -/
theorem ledger_hash_recomputed_from_file (env : EdgeEnv) :
    (∀ d hsh e, EdgeEffect.ledgerWrite d hsh e ∈ (edgeHandler env).effects →
      ∃ bytes, env.fileDownload = Except.ok bytes ∧
        hsh = computeFileHash env.sha256 bytes) ∧
    (∀ hv, edgeHandler (setRowCertHash env hv) = edgeHandler env) := by
  constructor
  · intro d hsh e hmem
    rcases edgeHandler_traces env with ht | ⟨cid, ht⟩ | ⟨cid, p, ht⟩ |
      ⟨cid, p, d', bytes, m, ht, hfd, hsw⟩ |
      ⟨cid, p, d', bytes, tx, bn, ht, hfd, hst, hwt, hdb⟩ |
      ⟨cid, p, d', bytes, tx, bn, ht, hfd, hst, hwt, hdb⟩
    · rw [ht] at hmem; simp at hmem
    · rw [ht] at hmem; simp at hmem
    · rw [ht] at hmem; simp at hmem
    · rw [ht] at hmem
      simp [errResponse] at hmem
      exact ⟨bytes, hfd, hmem.2.1⟩
    · rw [ht] at hmem
      simp [errResponse] at hmem
      exact ⟨bytes, hfd, hmem.2.1⟩
    · rw [ht] at hmem
      simp at hmem
      exact ⟨bytes, hfd, hmem.2.1⟩
  · intro hv
    rcases env with ⟨ah, au, pr, bd, cr, fd, cfg, sh, kc, st, wt, db⟩
    rcases cr with m | o
    · rfl
    · rcases o with _ | r
      · rfl
      · rfl

set_option maxRecDepth 8000 in
theorem ledger_hash_recomputed_from_file_witness :
    ∃ bytes, demoEnvOk.fileDownload = Except.ok bytes ∧
      computeFileHash demoSha [1, 2, 3] = computeFileHash demoEnvOk.sha256 bytes :=
  (ledger_hash_recomputed_from_file demoEnvOk).1
    "0xaaaaaaaaaaaaaaaaaaaaaaaaaaaaaaaaaaaaaaaa"
    (computeFileHash demoSha [1, 2, 3]) true (by decide)

end Edge



namespace Edge

/-- A run whose donor address is 40 hex characters without the `0x`
prefix, and whose certificate lookup finds no row. -/
def demoEnvUnprefixed : EdgeEnv :=
  { demoEnvOk with
    body := { demoBody with
      donorWalletAddress := some "aaaaaaaaaaaaaaaaaaaaaaaaaaaaaaaaaaaaaaaa" },
    certRow := .ok none }

end Edge

/-- A wallet address accepted by the shared regex is not empty. -/
lemma wallet_format_ne_empty {wa : String}
    (h : Client.isWalletAddressFormat wa = true) : (wa == "") = false := by
  cases hw : wa == ""
  · rfl
  · exfalso
    have : wa = "" := by simpa using hw
    subst this
    simp [Client.isWalletAddressFormat] at h

set_option maxRecDepth 8000 in
/-- Claim C9 counterexample: the `decide` entry point does not accept
exactly the `0x`-prefixed 40-hex-character strings: its validator
`ethers.isAddress` accepts a 40-hex-character string with no `0x`
prefix (rejected by the regex the other three entry points share), and
the handler then proceeds to an external call (the certificate fetch)
with that address. -/
theorem decide_accepts_unprefixed_hex_address :
    Ethers.isAddress demoKeccak "aaaaaaaaaaaaaaaaaaaaaaaaaaaaaaaaaaaaaaaa" = true ∧
    Client.isWalletAddressFormat "aaaaaaaaaaaaaaaaaaaaaaaaaaaaaaaaaaaaaaaa" = false ∧
    (Edge.edgeHandler Edge.demoEnvUnprefixed).effects =
      [Edge.EdgeEffect.fetchCert "cert-1"] := by
  refine ⟨by decide, by decide, by decide⟩

/-- Claim C9 (amended): the upload, verify-by-file and
lookup-by-address entry points accept exactly the `0x`-prefixed
40-hex-character strings, case-insensitively (the shared regex), and
reject any other address before performing any external operation
(empty effect trace; conversely any run with an external operation had
a regex-valid address, and a regex-valid address with cooperating
collaborators reaches the external calls); the `decide` entry point
instead validates with `ethers.isAddress` — which also accepts
unprefixed and checksummed forms — and likewise performs no file
download, ledger call or store operation when that check rejects the
address. -/
theorem address_validation_boundaries :
    (∀ file wa cav sha up ins, Client.isWalletAddressFormat wa = false →
      (file.isNone || wa == "") = false →
      Client.handleSubmit file wa cav sha up ins =
        (some "Invalid Ethereum wallet address format", [])) ∧
    (∀ file wa cav sha vc, Client.isWalletAddressFormat wa = false →
      (file.isNone || wa == "") = false →
      Client.handleVerifyFile file wa cav sha vc =
        (some "Invalid Ethereum wallet address format", [])) ∧
    (∀ la rc, Client.isWalletAddressFormat la = false → (la == "") = false →
      Client.handleLookupAddress la rc =
        (some "Invalid Ethereum wallet address format", [])) ∧
    (∀ file wa cav sha up ins, (Client.handleSubmit file wa cav sha up ins).2 ≠ [] →
      Client.isWalletAddressFormat wa = true) ∧
    (∀ file wa cav sha vc, (Client.handleVerifyFile file wa cav sha vc).2 ≠ [] →
      Client.isWalletAddressFormat wa = true) ∧
    (∀ la rc, (Client.handleLookupAddress la rc).2 ≠ [] →
      Client.isWalletAddressFormat la = true) ∧
    (∀ env : Edge.EdgeEnv,
      Ethers.isAddress env.keccak256 (env.body.donorWalletAddress.getD "") = false →
      (Edge.edgeHandler env).effects = []) ∧
    (∀ bytes wa sha, Client.isWalletAddressFormat wa = true →
      Client.handleSubmit (some bytes) wa true sha (.ok "path-1") (.ok ()) =
        (none, [Client.ClientEffect.storageUpload, Client.ClientEffect.dbInsert])) ∧
    (∀ bytes wa sha el ts mt, Client.isWalletAddressFormat wa = true →
      Client.handleVerifyFile (some bytes) wa true sha (.ok (el, ts, mt)) =
        (none, [Client.ClientEffect.chainVerify])) ∧
    (∀ wa hsh el ts, Client.isWalletAddressFormat wa = true →
      Client.handleLookupAddress wa (.ok (hsh, el, ts, true)) =
        (none, [Client.ClientEffect.chainGetRecord])) := by
  refine ⟨?_, ?_, ?_, ?_, ?_, ?_, ?_, ?_, ?_, ?_⟩
  · intro file wa cav sha up ins hinv hne
    simp [Client.handleSubmit, hinv, hne]
  · intro file wa cav sha vc hinv hne
    simp [Client.handleVerifyFile, hinv, hne]
  · intro la rc hinv hne
    simp [Client.handleLookupAddress, hinv, hne]
  · intro file wa cav sha up ins h
    cases hv : Client.isWalletAddressFormat wa
    · exfalso
      by_cases h1 : (file.isNone || wa == "") = true
      · simp [Client.handleSubmit, h1] at h
      · simp only [Bool.not_eq_true] at h1
        simp [Client.handleSubmit, h1, hv] at h
    · rfl
  · intro file wa cav sha vc h
    cases hv : Client.isWalletAddressFormat wa
    · exfalso
      by_cases h1 : (file.isNone || wa == "") = true
      · simp [Client.handleVerifyFile, h1] at h
      · simp only [Bool.not_eq_true] at h1
        simp [Client.handleVerifyFile, h1, hv] at h
    · rfl
  · intro la rc h
    cases hv : Client.isWalletAddressFormat la
    · exfalso
      by_cases h1 : (la == "") = true
      · simp [Client.handleLookupAddress, h1] at h
      · simp only [Bool.not_eq_true] at h1
        simp [Client.handleLookupAddress, h1, hv] at h
    · rfl
  · intro env h
    simp only [Edge.edgeHandler]
    repeat' split
    all_goals first | rfl | simp_all
  · intro bytes wa sha hv
    simp [Client.handleSubmit, hv, wallet_format_ne_empty hv, computeCertificateHash]
  · intro bytes wa sha el ts mt hv
    simp [Client.handleVerifyFile, hv, wallet_format_ne_empty hv,
      computeCertificateHash, Service.verifyHashOnBlockchain]
  · intro wa hsh el ts hv
    simp [Client.handleLookupAddress, hv, wallet_format_ne_empty hv,
      Service.getDonorBlockchainRecord]

set_option maxRecDepth 8000 in
theorem address_validation_boundaries_witness :
    Client.handleLookupAddress "not-an-address" (.ok (0, false, 0, false)) =
      (some "Invalid Ethereum wallet address format", []) ∧
    Client.handleVerifyFile (some [1])
        "0xAbcdefABCDEF0123456789abcdef0123456789ab" true demoSha
        (.ok (true, 5, true)) =
      (none, [Client.ClientEffect.chainVerify]) ∧
    (Edge.edgeHandler Edge.demoEnvBadAddr).effects = [] :=
  ⟨address_validation_boundaries.2.2.1 "not-an-address" (.ok (0, false, 0, false))
      (by decide) (by decide),
   address_validation_boundaries.2.2.2.2.2.2.2.2.1 [1]
      "0xAbcdefABCDEF0123456789abcdef0123456789ab" demoSha true 5 true (by decide),
   address_validation_boundaries.2.2.2.2.2.2.1 Edge.demoEnvBadAddr (by decide)⟩


end BloodLink
